import Mathlib

/-!
Verification of the `photutils.datasets` synthetic-image generators
(`images.py` and `wcs.py`) against their natural-language specification.

The Python code is shallowly embedded:

* an astropy-style model object's mutable parameter state is an ordered
  association list from parameter name to value (`Params`);
* a table is an ordered list of named columns (`Table`);
* Python object identity for tables (needed to observe in-place mutation
  vs. `.copy()`) is modelled by a store of tables indexed by references;
* numpy floating-point values are idealized as exact rationals (`ℚ`)
  where every decision in the code is order/equality based, and as reals
  (`ℝ`) where the code computes with `π`;
* exceptions are `Except Unit`, emitted warnings are collected in a list;
* external collaborators (model evaluation, the random coordinate
  generator, random flux draws) are passed in as explicit oracles.
-/

set_option autoImplicit false

namespace Photutils

/-- Mutable parameter state of a model object: ordered association list
from parameter name to value.  `setattr` updates every entry whose key
matches (Python attributes are unique, which the theorems assume via a
`Nodup` hypothesis on the key list). -/
abbrev Params (α : Type) : Type := List (String × α)

/-- The parameter names of a model (`model.param_names`). -/
def paramNames {α : Type} (m : Params α) : List String :=
  m.map Prod.fst

/-- `setattr(model, k, v)`: update the value stored under key `k`,
leaving the key structure unchanged. -/
def setParam {α : Type} (m : Params α) (k : String) (v : α) : Params α :=
  m.map (fun p => (p.1, if p.1 = k then v else p.2))

/-- `getattr(model, k)`: the value stored under the first entry with key
`k` (arbitrary default when absent; the code only reads keys that are
present). -/
def getPD {α : Type} [Inhabited α] (m : Params α) (k : String) : α :=
  ((m.find? (fun p => p.1 = k)).map Prod.snd).getD default

/-- An astropy table: ordered list of named columns, each a list of row
values. -/
abbrev Table (α : Type) : Type := List (String × List α)

/-- `table.colnames`. -/
def colnames {α : Type} (t : Table α) : List String :=
  t.map Prod.fst

/-- Look up a column by name. -/
def getCol {α : Type} (t : Table α) (k : String) : Option (List α) :=
  (t.find? (fun c => c.1 = k)).map Prod.snd

/-- `table[k] = col` for a fresh column name: append the column. -/
def addCol {α : Type} (t : Table α) (k : String) (col : List α) : Table α :=
  t ++ [(k, col)]

/-- Number of rows (astropy tables have equal-length columns; we read the
first). -/
def nrows {α : Type} (t : Table α) : ℕ :=
  match t with
  | [] => 0
  | c :: _ => c.2.length

/-- Row `i` of a table, as a name/value record. -/
def rowAt {α : Type} [Inhabited α] (t : Table α) (i : ℕ) : Params α :=
  t.map (fun c => (c.1, c.2.getD i default))

/-- The rows of a table in order (`for source in source_table`). -/
def tableRows {α : Type} [Inhabited α] (t : Table α) : List (Params α) :=
  (List.range (nrows t)).map (rowAt t)

/-- A 2D image as a value function on (row, column) pixel indices; the
array of shape `(ny, nx)` is its restriction to that rectangle. -/
abbrev Image (α : Type) : Type := ℕ → ℕ → α

/-- Result of the renderer: the image (or the propagated exception) and
the final parameter state of the caller-supplied model object. -/
structure RenderOut (α : Type) where
  result : Except Unit (Image α)
  model : Params α

/-- `make_model_sources_image` (images.py lines 91-120).  For each table
row, the model parameters matching table columns are overwritten, the
model is evaluated over the full grid (plain evaluation for
`oversample == 1`, `discretize_model` otherwise — both supplied as
oracles returning `none` when the underlying library call raises) and
added into the zero-initialized image; the `try/finally` restores the
initially saved parameter values on every exit path. -/
def make_model_sources_image {α : Type} [Inhabited α] [Add α] [Zero α]
    (model : Params α) (source_table : Table α) (oversample : ℚ)
    (evalModel : Params α → Option (Image α))
    (discretizeModel : Params α → ℚ → Option (Image α)) : RenderOut α :=
  let params_to_set :=
    (colnames source_table).filter (fun c => c ∈ paramNames model)
  let init_params := params_to_set.map (fun p => (p, getPD model p))
  let body := (tableRows source_table).foldl
    (fun (acc : Except Unit (Image α) × Params α) row =>
      match acc with
      | (Except.error e, m) => (Except.error e, m)
      | (Except.ok img, m) =>
        let m' := params_to_set.foldl
          (fun mm p => setParam mm p (getPD row p)) m
        match (if oversample = 1 then evalModel m'
               else discretizeModel m' oversample) with
        | some g => (Except.ok (fun y x => img y x + g y x), m')
        | none => (Except.error (), m'))
    (Except.ok (fun _ _ => (0 : α)), model)
  let restored := init_params.foldl (fun mm kv => setParam mm kv.1 kv.2) body.2
  { result := body.1, model := restored }

/-! ### Parameter-restoration lemmas

Every parameter state reachable inside the renderer loop is the initial
state with the values at keys in `params_to_set` overwritten; folding the
saved initial values back therefore restores the initial state exactly
(given unique parameter names). -/
/-- The initial state with the values at keys in `K` replaced according
to `f`. -/

def overwriteKeys {α : Type} (m : Params α) (K : List String)
    (f : String → α) : Params α :=
  m.map (fun p => (p.1, if p.1 ∈ K then f p.1 else p.2))

/-- Being an overwrite of `m` at keys from `K`. -/
def IsOverwrite {α : Type} (m : Params α) (K : List String)
    (s : Params α) : Prop :=
  ∃ f, s = overwriteKeys m K f

/-! ### Gaussian / PRF convenience wrappers (images.py lines 199-217 and
284-298)

Python table objects are mutable and passed by reference; to make
"`.copy()` protects the caller's table" observable, tables live in a
store (`TableStore`) and functions receive a reference.  `.copy()`
allocates a new store entry; the subsequent column assignment targets the
copy, so the two steps are modelled as appending the already-extended
copy. -/
/-- A store of table objects; a Python table reference is an index. -/

abbrev TableStore (α : Type) : Type := List (Table α)

/-- Output of a wrapper call: the table store after the call, the
reference of the table object handed to the renderer, and the renderer's
output. -/
structure WrapperOut (α : Type) where
  store : TableStore α
  usedRef : ℕ
  out : RenderOut α

/-- The table object a wrapper handed to the renderer. -/
def usedTable {α : Type} (w : WrapperOut α) : Table α :=
  w.store.getD w.usedRef []

/-- Parameter state of `models.Gaussian2D(x_stddev=1, y_stddev=1)`:
astropy defaults for the remaining parameters.  Note `flux` is not a
`Gaussian2D` parameter. -/
def gaussian2DParams : Params ℝ :=
  [("amplitude", 1), ("x_mean", 0), ("y_mean", 0),
   ("x_stddev", 1), ("y_stddev", 1), ("theta", 0)]

/-- Modelled from the spec: `photutils.psf.IntegratedGaussianPRF` (not
under `src/`) is a 2D model whose parameters are an integrated `flux`
(not a peak `amplitude`), a center `x_0`, `y_0` and a width `sigma`; the
wrapper constructs it as `IntegratedGaussianPRF(sigma=1)` with default
flux 1 and center 0. -/
def integratedGaussianPRFParams : Params ℝ :=
  [("flux", 1), ("x_0", 0), ("y_0", 0), ("sigma", 1)]

/-- Per-row value of a named column, falling back to a model default
constant when the column is absent (`source_table['x_stddev']` vs.
`model.x_stddev.value`). -/
noncomputable def colValD (t : Table ℝ) (k : String) (dflt : ℝ) (i : ℕ) : ℝ :=
  match getCol t k with
  | some c => c.getD i 0
  | none => dflt

/-- The amplitude column derived from a flux column:
`flux / (2 * pi * x_stddev * y_stddev)` per row. -/
noncomputable def gaussianAmplitudeCol (t : Table ℝ) : List ℝ :=
  (List.range (nrows t)).map
    (fun i => colValD t "flux" 0 i
      / (2 * Real.pi * colValD t "x_stddev" 1 i * colValD t "y_stddev" 1 i))

/-- The flux column derived from an amplitude column:
`amplitude * (2 * pi * sigma * sigma)` per row. -/
noncomputable def prfFluxCol (t : Table ℝ) : List ℝ :=
  (List.range (nrows t)).map
    (fun i => colValD t "amplitude" 0 i
      * (2 * Real.pi * colValD t "sigma" 1 i * colValD t "sigma" 1 i))

/-- `make_gaussian_sources_image` (images.py lines 199-217): if the table
has a `flux` column but no `amplitude` column, copy the table and add the
converted `amplitude` column; delegate to the renderer with a fresh
`Gaussian2D` model. -/
noncomputable def make_gaussian_sources_image (st : TableStore ℝ) (r : ℕ)
    (oversample : ℚ)
    (evalModel : Params ℝ → Option (Image ℝ))
    (discretizeModel : Params ℝ → ℚ → Option (Image ℝ)) : WrapperOut ℝ :=
  let source_table := st.getD r []
  if "flux" ∈ colnames source_table ∧ "amplitude" ∉ colnames source_table then
    let copyTable := addCol source_table "amplitude"
      (gaussianAmplitudeCol source_table)
    { store := st ++ [copyTable], usedRef := st.length,
      out := make_model_sources_image gaussian2DParams copyTable oversample
        evalModel discretizeModel }
  else
    { store := st, usedRef := r,
      out := make_model_sources_image gaussian2DParams source_table oversample
        evalModel discretizeModel }

/-- `make_gaussian_prf_sources_image` (images.py lines 284-298): if the
table has an `amplitude` column but no `flux` column, copy the table and
add the converted `flux` column; delegate to the renderer with a fresh
`IntegratedGaussianPRF(sigma=1)` model and `oversample=1`. -/
noncomputable def make_gaussian_prf_sources_image (st : TableStore ℝ) (r : ℕ)
    (evalModel : Params ℝ → Option (Image ℝ))
    (discretizeModel : Params ℝ → ℚ → Option (Image ℝ)) : WrapperOut ℝ :=
  let source_table := st.getD r []
  if "flux" ∉ colnames source_table ∧ "amplitude" ∈ colnames source_table then
    let copyTable := addCol source_table "flux" (prfFluxCol source_table)
    { store := st ++ [copyTable], usedRef := st.length,
      out := make_model_sources_image integratedGaussianPRFParams copyTable 1
        evalModel discretizeModel }
  else
    { store := st, usedRef := r,
      out := make_model_sources_image integratedGaussianPRFParams source_table 1
        evalModel discretizeModel }

/-! ### PSF test-data builder (images.py lines 425-577) -/
/-- Per-axis rational intervals of `model.bounding_box`
(`model_bbox['x'].lower` etc.). -/

structure BBox where
  xlo : ℚ
  xhi : ℚ
  ylo : ℚ
  yhi : ℚ
deriving DecidableEq

/-- The attributes of a PSF model consulted by `_define_psf_shape`: an
optional `data` array (given by its shape, one entry per dimension), an
optional `bounding_box` and an optional `oversampling`.  `oversampling`
is stored already normalized to a pair, as `as_pair('oversampling', ...)`
(photutils.utils, not under `src/`) broadcasts a scalar. -/
structure PsfMeta where
  dataShape : Option (List ℕ)
  bbox : Option BBox
  oversampling : Option (ℕ × ℕ)
deriving DecidableEq

/-- Warnings emitted via `warnings.warn` (identified by which message was
issued). -/
inductive Warn where
  | psfShapeFromData
  | psfShapeFromBBox
deriving DecidableEq

/-- `_define_psf_shape` (images.py lines 425-474).  When the model has a
`data` attribute, its shape (`shape[1:]` for 3D, `shape` for 2D, floor
divided by the oversampling) bounds the evaluation window; when the model
shape variable is never assigned (ndim not 2 or 3) the subsequent
`np.array(model_shape)` raises `UnboundLocalError`, modelled as
`Except.error`.  Without `data`, the bounding box (when implemented)
bounds the window.  If any requested axis exceeds the bound, the window
shrinks to the per-axis minimum and a warning is emitted. -/
def define_psf_shape (m : PsfMeta) (psf_shape : ℤ × ℤ) :
    (Except Unit (ℤ × ℤ)) × List Warn :=
  match m.dataShape with
  | some ds =>
    if ds.length = 3 ∨ ds.length = 2 then
      let raw : ℕ × ℕ :=
        if ds.length = 3 then (ds.getD 1 0, ds.getD 2 0)
        else (ds.getD 0 0, ds.getD 1 0)
      let ov := m.oversampling.getD (1, 1)
      let ms : ℤ × ℤ := ((raw.1 / ov.1 : ℕ), (raw.2 / ov.2 : ℕ))
      if psf_shape.1 > ms.1 ∨ psf_shape.2 > ms.2 then
        (Except.ok (min ms.1 psf_shape.1, min ms.2 psf_shape.2),
         [Warn.psfShapeFromData])
      else
        (Except.ok psf_shape, [])
    else
      (Except.error (), [])
  | none =>
    match m.bbox with
    | some bb =>
      let ixmin := Int.floor (bb.xlo + 1/2)
      let ixmax := Int.ceil (bb.xhi + 1/2)
      let iymin := Int.floor (bb.ylo + 1/2)
      let iymax := Int.ceil (bb.yhi + 1/2)
      let ms : ℤ × ℤ := (iymax - iymin, ixmax - ixmin)
      if psf_shape.1 > ms.1 ∨ psf_shape.2 > ms.2 then
        (Except.ok (min ms.1 psf_shape.1, min ms.2 psf_shape.2),
         [Warn.psfShapeFromBBox])
      else
        (Except.ok psf_shape, [])
    | none => (Except.ok psf_shape, [])

/-- The border half-shape `(np.array(psf_shape) - 1) // 2` (numpy floor
division). -/
def psfHalfShape (s : ℤ × ℤ) : ℤ × ℤ :=
  ((s.1 - 1).fdiv 2, (s.2 - 1).fdiv 2)

/-- `hshape`: the caller-supplied `border_size` when given, else the
half-shape of the evaluated PSF window. -/
def borderHShape (border_size : Option (ℤ × ℤ)) (shp : ℤ × ℤ) : ℤ × ℤ :=
  match border_size with
  | none => psfHalfShape shp
  | some b => b

/-- `xrange = (hshape[1], shape[1] - hshape[1])`. -/
def xRangeOf (shape : ℕ × ℕ) (hshape : ℤ × ℤ) : ℚ × ℚ :=
  ((hshape.2 : ℚ), (shape.2 : ℚ) - (hshape.2 : ℚ))

/-- `yrange = (hshape[0], shape[0] - hshape[0])`. -/
def yRangeOf (shape : ℕ × ℕ) (hshape : ℤ × ℤ) : ℚ × ℚ :=
  ((hshape.1 : ℚ), (shape.1 : ℚ) - (hshape.1 : ℚ))

/-- One axis of `astropy.nddata.overlap_slices(large, small, pos,
mode='trim')`: edge indices are `int(np.ceil(pos ∓ small/2))`, then the
large-array slice is trimmed to `[0, large)`.  The result is the
half-open index range `[lo, hi)` of the large array. -/
def overlapSliceTrim (large : ℕ) (small : ℤ) (pos : ℚ) : ℤ × ℤ :=
  (max 0 (Int.ceil (pos - (small : ℚ) / 2)),
   min (large : ℤ) (Int.ceil (pos + (small : ℚ) / 2)))

/-- The clipped evaluation window of a source centered at `(x, y) = c`:
y-slice and x-slice of the output image. -/
def windowOf (shape : ℕ × ℕ) (shp : ℤ × ℤ) (c : ℚ × ℚ) :
    (ℤ × ℤ) × (ℤ × ℤ) :=
  (overlapSliceTrim shape.1 shp.1 c.2, overlapSliceTrim shape.2 shp.2 c.1)

/-- Pixel `(py, px)` lies in window `w` (y-slice, x-slice). -/
def inWindow (w : (ℤ × ℤ) × (ℤ × ℤ)) (py px : ℕ) : Prop :=
  w.1.1 ≤ (py : ℤ) ∧ (py : ℤ) < w.1.2 ∧ w.2.1 ≤ (px : ℤ) ∧ (px : ℤ) < w.2.2

instance (w : (ℤ × ℤ) × (ℤ × ℤ)) (py px : ℕ) : Decidable (inWindow w py px) :=
  inferInstanceAs (Decidable (_ ∧ _ ∧ _ ∧ _))

/-- A PSF model object: the metadata consulted for the window shape plus
the mutable parameter state. -/
structure PsfModelObj where
  meta : PsfMeta
  params : Params ℚ

/-- The realized source rows `(x_0, y_0, flux)`: generated coordinates
zipped with the flux draws truncated to the number of positions
(`flux = flux[:len(x)]`). -/
def psfSourceRows (cs : List (ℚ × ℚ)) (fluxDraws : List ℚ) :
    List (ℚ × ℚ × ℚ) :=
  (cs.zip (fluxDraws.take cs.length)).map (fun p => (p.1.1, p.1.2, p.2))

/-- One iteration of the placement loop: overwrite the model's `x_0`,
`y_0`, `flux` with the source's values, compute the trimmed overlap
window around the source center and add the evaluated model over that
window into the image. -/
def psfPlaceStep (shape : ℕ × ℕ) (shp : ℤ × ℤ)
    (psfEval : Params ℚ → ℕ → ℕ → ℚ)
    (acc : Image ℚ × Params ℚ) (src : ℚ × ℚ × ℚ) : Image ℚ × Params ℚ :=
  let m' := setParam (setParam (setParam acc.2 "x_0" src.1)
    "y_0" src.2.1) "flux" src.2.2
  let w := windowOf shape shp (src.1, src.2.1)
  (fun py px => acc.1 py px +
    (if inWindow w py px then psfEval m' px py else 0), m')

/-- Result of `make_test_psf_data`: the accumulated image, the returned
source table and the final parameter state of the caller's PSF model. -/
structure TestPsfOut where
  data : Image ℚ
  table : Table ℚ
  model : Params ℚ

/-- `make_test_psf_data` (images.py lines 477-577).  External
collaborators are explicit oracles: `xycoordsGen` stands for the seeded
`make_random_xycoords(nsources, xrange, yrange, min_separation, seed)`
(photutils.utils, not under `src/`; modelled from the spec contract
"returns ≤ N positions within the ranges with pairwise separation ≥ d"
— imposed as hypotheses where needed), `fluxDraws` for the `nsources`
values of `rng.uniform(flux_range[0], flux_range[1], nsources)`, and
`psfEval` for evaluating the PSF model at a pixel given its current
parameter state.  The flux list is truncated to the number of generated
positions; the model's `x_0`, `y_0`, `flux` are overwritten per source
with no save/restore. -/
def make_test_psf_data (shape : ℕ × ℕ) (psf_model : PsfModelObj)
    (psf_shape : ℤ × ℤ) (nsources : ℕ) (min_separation : ℚ)
    (border_size : Option (ℤ × ℤ))
    (xycoordsGen : ℕ → (ℚ × ℚ) → (ℚ × ℚ) → ℚ → List (ℚ × ℚ))
    (fluxDraws : List ℚ)
    (psfEval : Params ℚ → ℕ → ℕ → ℚ) :
    (Except Unit TestPsfOut) × List Warn :=
  match define_psf_shape psf_model.meta psf_shape with
  | (Except.error e, ws) => (Except.error e, ws)
  | (Except.ok shp, ws) =>
    let hshape := borderHShape border_size shp
    let xrange := xRangeOf shape hshape
    let yrange := yRangeOf shape hshape
    let xycoords := xycoordsGen nsources xrange yrange min_separation
    let sourcesRows := psfSourceRows xycoords fluxDraws
    let final := sourcesRows.foldl (psfPlaceStep shape shp psfEval)
      ((fun _ _ => (0 : ℚ)), psf_model.params)
    let tbl : Table ℚ :=
      [("x", sourcesRows.map (fun s => s.1)),
       ("y", sourcesRows.map (fun s => s.2.1)),
       ("flux", sourcesRows.map (fun s => s.2.2))]
    (Except.ok { data := final.1, table := tbl, model := final.2 }, ws)

/-! ### Coordinate-system builders (wcs.py)

`make_wcs` and `make_gwcs` only construct parameter objects; the numeric
pixel→sky evaluation lives in wcslib / gwcs.  A constructed transform is
therefore embedded as the exact parameter set that determines the
pixel→sky map: the shift applied to 0-indexed pixels (for `make_wcs`,
`pixel + 1 - crpix` by the FITS 1-indexed convention), the CD matrix, the
reference sky point `crval`, the `LONPOLE` of the native→celestial
rotation (wcslib defaults to 180° whenever `crval` latitude is below the
native fiducial latitude, which holds for both projections used here;
`make_gwcs` passes 180 explicitly), the projection type and the sky
frame.  Whether the two builders' outputs agree "within floating
tolerance" on a sampled grid is a floating-point property of the
external transform libraries and is not judged here; the descriptions
record exactly what each builder constructs. -/
/-- Exact value `a + b * √3`: the CD matrix entries are
`±scale * cos(π/3) = ±scale/2` and `scale * sin(π/3) = scale·√3/2`. -/

structure QSqrt3 where
  a : ℚ
  b : ℚ
deriving DecidableEq

/-- Real value of a `QSqrt3`. -/
noncomputable def QSqrt3.toReal (q : QSqrt3) : ℝ :=
  (q.a : ℝ) + (q.b : ℝ) * Real.sqrt 3

/-- Sky projection set by the builders: `TAN` (gnomonic, `RA---TAN` /
`Pix2Sky_TAN`) or `CAR` (plate carrée, `GLON-CAR`). -/
inductive ProjType where
  | tan
  | car
deriving DecidableEq

/-- Celestial frame of the output coordinates. -/
inductive SkyFrame where
  | icrs
  | galactic
deriving DecidableEq

/-- The parameters determining a pixel→sky transform. -/
structure PixSkyDesc where
  shiftX : ℚ
  shiftY : ℚ
  cd00 : QSqrt3
  cd01 : QSqrt3
  cd10 : QSqrt3
  cd11 : QSqrt3
  crval1 : ℚ
  crval2 : ℚ
  lonpole : ℚ
  proj : ProjType
  frame : SkyFrame
deriving DecidableEq

/-- `scale = 0.1 / 3600.0` (0.1 arcsec/pixel in deg/pixel). -/
def wcsScale : ℚ := ((1 : ℚ) / 10) / 3600

/-- `crval = [197.8925, -1.36555556]`. -/
def wcsCrval1 : ℚ := (1978925 : ℚ) / 10000

def wcsCrval2 : ℚ := -((136555556 : ℚ) / 100000000)

/-- `make_wcs` (wcs.py lines 58-74): FITS WCS with
`crpix = [shape[1]/2, shape[0]/2]` (1-indexed, so the shift applied to a
0-indexed pixel is `1 - shape/2`), the rotation+scale CD matrix with
`rho = π/3`, and either `RA---TAN`/`DEC--TAN` in ICRS or
`GLON-CAR`/`GLAT-CAR` in the Galactic frame. -/
def make_wcs (shape : ℕ × ℕ) (galactic : Bool) : PixSkyDesc :=
  { shiftX := 1 - (shape.2 : ℚ) / 2
    shiftY := 1 - (shape.1 : ℚ) / 2
    cd00 := ⟨-(wcsScale / 2), 0⟩
    cd01 := ⟨0, wcsScale / 2⟩
    cd10 := ⟨0, wcsScale / 2⟩
    cd11 := ⟨wcsScale / 2, 0⟩
    crval1 := wcsCrval1
    crval2 := wcsCrval2
    lonpole := 180
    proj := if galactic then ProjType.car else ProjType.tan
    frame := if galactic then SkyFrame.galactic else SkyFrame.icrs }

/-- `make_gwcs` (wcs.py lines 120-155): gWCS pipeline
`Shift((-shape[1]/2) + 1) & Shift((-shape[0]/2) + 1)`, the same CD matrix
as an affine transform with zero translation, `Pix2Sky_TAN()` (for both
frame choices), and `RotateNative2Celestial(197.8925, -1.36555556, 180)`
into an ICRS or Galactic celestial frame. -/
def make_gwcs (shape : ℕ × ℕ) (galactic : Bool) : PixSkyDesc :=
  { shiftX := -(shape.2 : ℚ) / 2 + 1
    shiftY := -(shape.1 : ℚ) / 2 + 1
    cd00 := ⟨-(wcsScale / 2), 0⟩
    cd01 := ⟨0, wcsScale / 2⟩
    cd10 := ⟨0, wcsScale / 2⟩
    cd11 := ⟨wcsScale / 2, 0⟩
    crval1 := wcsCrval1
    crval2 := wcsCrval2
    lonpole := 180
    proj := ProjType.tan
    frame := if galactic then SkyFrame.galactic else SkyFrame.icrs }

/-- A numpy array passed to `make_imagehdu`: shape (whose length is
`ndim`) plus flat values. -/
structure NDArr where
  shape : List ℕ
  values : List ℚ
deriving DecidableEq

/-- A FITS `ImageHDU`: the wrapped data plus the optional header derived
from a WCS (the `wcs.to_header()` serialization is represented by the
transform description itself). -/
structure ImageHDU where
  data : NDArr
  header : Option PixSkyDesc
deriving DecidableEq

/-- `make_imagehdu` (wcs.py lines 191-200): raise `ValueError` unless the
data is 2D; otherwise wrap the data, with the WCS header exactly when a
WCS is supplied. -/
def make_imagehdu (data : NDArr) (wcs : Option PixSkyDesc) :
    Except Unit ImageHDU :=
  if data.shape.length ≠ 2 then Except.error ()
  else Except.ok { data := data, header := wcs }

/-! ### Claim theorems -/
/-- C10: a `psf_model` whose `data` attribute exists but is neither 2D
nor 3D (here a 1D array of length 5) drives `_define_psf_shape` into the
branch where `model_shape` is never assigned, so the subsequent
`np.array(model_shape)` raises an unhandled `UnboundLocalError` instead
of returning a window shape, and `make_test_psf_data` propagates the
exception. -/

theorem overwriteKeys_congr {α : Type} (m : Params α) (K : List String)
    (f g : String → α) (h : ∀ k, k ∈ K → f k = g k) :
    overwriteKeys m K f = overwriteKeys m K g := by
  unfold overwriteKeys
  apply List.map_congr_left
  intro p _
  by_cases hk : p.1 ∈ K
  · simp [hk, h p.1 hk]
  · simp [hk]

theorem setParam_overwriteKeys {α : Type} (m : Params α) (K : List String)
    (f : String → α) (k : String) (v : α) (hk : k ∈ K) :
    setParam (overwriteKeys m K f) k v
      = overwriteKeys m K (fun k' => if k' = k then v else f k') := by
  unfold setParam overwriteKeys
  rw [List.map_map]
  apply List.map_congr_left
  intro p _
  by_cases h1 : p.1 = k
  · subst h1
    simp [hk]
  · by_cases h2 : p.1 ∈ K <;> simp [h1, h2]

theorem getPD_cons_ne {α : Type} [Inhabited α] (k k' : String) (v : α)
    (m : Params α) (h : k' ≠ k) :
    getPD ((k, v) :: m) k' = getPD m k' := by
  unfold getPD
  rw [List.find?_cons_of_neg]
  simp [Ne.symm h]

theorem overwriteKeys_getPD {α : Type} [Inhabited α] (m : Params α)
    (K : List String) (hnd : (paramNames m).Nodup) :
    overwriteKeys m K (fun k => getPD m k) = m := by
  induction m with
  | nil => rfl
  | cons p t ih =>
    obtain ⟨k₀, v₀⟩ := p
    simp only [paramNames, List.map_cons, List.nodup_cons] at hnd
    have hk₀ : k₀ ∉ List.map Prod.fst t := hnd.1
    unfold overwriteKeys
    simp only [List.map_cons, List.cons.injEq]
    refine ⟨?_, ?_⟩
    · by_cases hin : k₀ ∈ K
      · simp [hin, getPD, List.find?]
      · simp [hin]
    · have step : List.map
          (fun q => (q.1, if q.1 ∈ K then getPD ((k₀, v₀) :: t) q.1 else q.2)) t
          = List.map (fun q => (q.1, if q.1 ∈ K then getPD t q.1 else q.2)) t := by
        apply List.map_congr_left
        intro q hq
        by_cases hk : q.1 ∈ K
        · have hne : q.1 ≠ k₀ := by
            intro h
            exact hk₀ (h ▸ List.mem_map_of_mem Prod.fst hq)
          simp only [hk, if_true]
          rw [getPD_cons_ne k₀ q.1 v₀ t hne]
        · simp [hk]
      rw [step]
      exact ih hnd.2

theorem restoreFold_overwriteKeys {α : Type} [Inhabited α] (m : Params α)
    (K : List String) (f : String → α) (L : List String)
    (hL : ∀ k, k ∈ L → k ∈ K) :
    (L.map (fun k => (k, getPD m k))).foldl
        (fun mm kv => setParam mm kv.1 kv.2) (overwriteKeys m K f)
      = overwriteKeys m K
          (fun k => if k ∈ L then getPD m k else f k) := by
  induction L generalizing f with
  | nil => simp
  | cons k₀ L' ih =>
    simp only [List.map_cons, List.foldl_cons]
    rw [setParam_overwriteKeys m K f k₀ (getPD m k₀) (hL k₀ (by simp))]
    rw [ih (fun k' => if k' = k₀ then getPD m k₀ else f k')
        (fun k hk => hL k (by simp [hk]))]
    apply overwriteKeys_congr
    intro k _
    by_cases h1 : k ∈ L'
    · simp [h1]
    · by_cases h2 : k = k₀ <;> simp [h1, h2]

theorem isOverwrite_setParam {α : Type} (m : Params α) (K : List String)
    (s : Params α) (k : String) (v : α) (hk : k ∈ K)
    (hs : IsOverwrite m K s) : IsOverwrite m K (setParam s k v) := by
  obtain ⟨f, rfl⟩ := hs
  exact ⟨fun k' => if k' = k then v else f k',
    setParam_overwriteKeys m K f k v hk⟩

theorem isOverwrite_foldSet {α : Type} [Inhabited α] (m : Params α)
    (K : List String) (s : Params α) (row : Params α)
    (hs : IsOverwrite m K s) :
    IsOverwrite m K
      (K.foldl (fun mm p => setParam mm p (getPD row p)) s) := by
  have general : ∀ (L : List String), (∀ k, k ∈ L → k ∈ K) →
      ∀ s', IsOverwrite m K s' →
      IsOverwrite m K (L.foldl (fun mm p => setParam mm p (getPD row p)) s') := by
    intro L
    induction L with
    | nil => intro _ s' hs'; simpa using hs'
    | cons k₀ L' ih =>
      intro hL s' hs'
      simp only [List.foldl_cons]
      exact ih (fun k hk => hL k (by simp [hk]))
        (setParam s' k₀ (getPD row k₀))
        (isOverwrite_setParam m K s' k₀ (getPD row k₀) (hL k₀ (by simp)) hs')
  exact general K (fun _ hk => hk) s hs

theorem isOverwrite_renderLoop {α : Type} [Inhabited α] [Add α]
    (m : Params α) (K : List String)
    (rows : List (Params α)) (oversample : ℚ)
    (evalModel : Params α → Option (Image α))
    (discretizeModel : Params α → ℚ → Option (Image α))
    (acc : Except Unit (Image α) × Params α)
    (hacc : IsOverwrite m K acc.2) :
    IsOverwrite m K
      ((rows.foldl
        (fun (acc : Except Unit (Image α) × Params α) row =>
          match acc with
          | (Except.error e, mm) => (Except.error e, mm)
          | (Except.ok img, mm) =>
            let m' := K.foldl (fun mm2 p => setParam mm2 p (getPD row p)) mm
            match (if oversample = 1 then evalModel m'
                   else discretizeModel m' oversample) with
            | some g => (Except.ok (fun y x => img y x + g y x), m')
            | none => (Except.error (), m')) acc)).2 := by
  induction rows generalizing acc with
  | nil => simpa using hacc
  | cons r rows' ih =>
    simp only [List.foldl_cons]
    apply ih
    obtain ⟨res, mm⟩ := acc
    cases res with
    | error e => simpa using hacc
    | ok img =>
      have hset := isOverwrite_foldSet m K mm r hacc
      cases hval : (if oversample = 1 then
          evalModel (K.foldl (fun mm2 p => setParam mm2 p (getPD r p)) mm)
        else discretizeModel
          (K.foldl (fun mm2 p => setParam mm2 p (getPD r p)) mm) oversample) with
      | none => simpa [hval] using hset
      | some g => simpa [hval] using hset

/-- `make_model_sources_image` restores the caller's model parameters on
every exit path (normal return or propagated exception from model
evaluation), provided the model's parameter names are unique. -/
theorem make_model_sources_image_restores {α : Type} [Inhabited α] [Add α]
    [Zero α] (model : Params α) (source_table : Table α) (oversample : ℚ)
    (evalModel : Params α → Option (Image α))
    (discretizeModel : Params α → ℚ → Option (Image α))
    (hnd : (paramNames model).Nodup) :
    (make_model_sources_image model source_table oversample
        evalModel discretizeModel).model = model := by
  unfold make_model_sources_image
  simp only
  set K := (colnames source_table).filter (fun c => c ∈ paramNames model)
    with hK
  have hbody : IsOverwrite model K
      (((tableRows source_table).foldl
        (fun (acc : Except Unit (Image α) × Params α) row =>
          match acc with
          | (Except.error e, mm) => (Except.error e, mm)
          | (Except.ok img, mm) =>
            let m' := K.foldl (fun mm2 p => setParam mm2 p (getPD row p)) mm
            match (if oversample = 1 then evalModel m'
                   else discretizeModel m' oversample) with
            | some g => (Except.ok (fun y x => img y x + g y x), m')
            | none => (Except.error (), m'))
        (Except.ok (fun _ _ => (0 : α)), model))).2 := by
    apply isOverwrite_renderLoop
    exact ⟨fun k => getPD model k, (overwriteKeys_getPD model K hnd).symm⟩
  obtain ⟨f, hf⟩ := hbody
  rw [hf]
  rw [restoreFold_overwriteKeys model K f K (fun _ hk => hk)]
  rw [overwriteKeys_congr model K _ (fun k => getPD model k)
    (by intro k hk; simp [hk])]
  exact overwriteKeys_getPD model K hnd

theorem usedTable_concat {α : Type} (st : TableStore α) (t : Table α)
    (out : RenderOut α) :
    usedTable ⟨st ++ [t], st.length, out⟩ = t := by
  unfold usedTable
  simp only
  rw [List.getD_eq_getElem?_getD, List.getElem?_concat_length]
  rfl

/-- The CD entries written by both builders are
`-scale*cos(π/3)`, `scale*sin(π/3)`, `scale*sin(π/3)`, `scale*cos(π/3)`:
the exact `QSqrt3` values recorded in the descriptions equal those real
expressions. -/
theorem cd_entries_exact :
    (QSqrt3.toReal ⟨-(wcsScale / 2), 0⟩
       = -(wcsScale : ℝ) * Real.cos (Real.pi / 3))
    ∧ (QSqrt3.toReal ⟨0, wcsScale / 2⟩
       = (wcsScale : ℝ) * Real.sin (Real.pi / 3)) := by
  constructor
  · rw [Real.cos_pi_div_three]
    simp [QSqrt3.toReal]
    ring
  · rw [Real.sin_pi_div_three]
    simp [QSqrt3.toReal]
    ring

/-! ### Support lemmas for the PSF test-data builder -/
theorem paramNames_setParam {α : Type} (m : Params α) (k : String) (v : α) :
    paramNames (setParam m k v) = paramNames m := by
  simp [paramNames, setParam]

theorem getPD_setParam_self {α : Type} [Inhabited α] (m : Params α)
    (k : String) (v : α) (hk : k ∈ paramNames m) :
    getPD (setParam m k v) k = v := by
  induction m with
  | nil => simp [paramNames] at hk
  | cons p t ih =>
    by_cases h : p.1 = k
    · simp [setParam, getPD, List.find?, h]
    · have hk' : k ∈ paramNames t := by
        simp [paramNames] at hk
        rcases hk with h1 | h1
        · exact absurd h1.symm h
        · simpa [paramNames] using h1
      have := ih hk'
      simpa [setParam, getPD, List.find?_cons_of_neg, h] using this

theorem getPD_setParam_ne {α : Type} [Inhabited α] (m : Params α)
    (k k' : String) (v : α) (h : k' ≠ k) :
    getPD (setParam m k v) k' = getPD m k' := by
  induction m with
  | nil => rfl
  | cons p t ih =>
    by_cases hp : p.1 = k'
    · have hpk : p.1 ≠ k := by rw [hp]; exact h
      simp [setParam, getPD, List.find?, hp, hpk, h]
    · have h1 : getPD (setParam t k v) k' = getPD t k' := ih
      by_cases hpk : p.1 = k
      · simpa [setParam, getPD, List.find?_cons_of_neg, hp, hpk,
          Ne.symm h] using h1
      · simpa [setParam, getPD, List.find?_cons_of_neg, hp, hpk] using h1

theorem paramNames_psfPlaceStep (shape : ℕ × ℕ) (shp : ℤ × ℤ)
    (psfEval : Params ℚ → ℕ → ℕ → ℚ) (acc : Image ℚ × Params ℚ)
    (src : ℚ × ℚ × ℚ) :
    paramNames (psfPlaceStep shape shp psfEval acc src).2 = paramNames acc.2 := by
  simp [psfPlaceStep, paramNames_setParam]

/-- After the placement loop, the model's `x_0`, `y_0`, `flux` hold the
values of the last processed source. -/
theorem psfLoop_last_params (shape : ℕ × ℕ) (shp : ℤ × ℤ)
    (psfEval : Params ℚ → ℕ → ℕ → ℚ) (rows : List (ℚ × ℚ × ℚ))
    (start : Image ℚ × Params ℚ) (r : ℚ × ℚ × ℚ)
    (hlast : rows.getLast? = some r)
    (hx : "x_0" ∈ paramNames start.2) (hy : "y_0" ∈ paramNames start.2)
    (hf : "flux" ∈ paramNames start.2) :
    getPD (rows.foldl (psfPlaceStep shape shp psfEval) start).2 "x_0" = r.1
    ∧ getPD (rows.foldl (psfPlaceStep shape shp psfEval) start).2 "y_0" = r.2.1
    ∧ getPD (rows.foldl (psfPlaceStep shape shp psfEval) start).2 "flux" = r.2.2 := by
  induction rows generalizing start with
  | nil => simp at hlast
  | cons r0 rest ih =>
    cases rest with
    | nil =>
      have hr : r0 = r := by simpa using hlast
      rw [← hr]
      simp only [List.foldl_cons, List.foldl_nil]
      have hm : (psfPlaceStep shape shp psfEval start r0).2
          = setParam (setParam (setParam start.2 "x_0" r0.1) "y_0" r0.2.1)
              "flux" r0.2.2 := rfl
      rw [hm]
      refine ⟨?_, ?_, ?_⟩
      · rw [getPD_setParam_ne _ _ _ _ (by decide),
          getPD_setParam_ne _ _ _ _ (by decide)]
        exact getPD_setParam_self start.2 "x_0" r0.1 hx
      · rw [getPD_setParam_ne _ _ _ _ (by decide)]
        apply getPD_setParam_self
        rw [paramNames_setParam]
        exact hy
      · apply getPD_setParam_self
        rw [paramNames_setParam, paramNames_setParam]
        exact hf
    | cons r1 rest' =>
      have hlast' : (r1 :: rest').getLast? = some r := by
        rwa [List.getLast?_cons_cons] at hlast
      simp only [List.foldl_cons] at ih ⊢
      have hnames := paramNames_psfPlaceStep shape shp psfEval start r0
      exact ih (psfPlaceStep shape shp psfEval start r0) hlast'
        (hnames ▸ hx) (hnames ▸ hy) (hnames ▸ hf)

/-- A pixel outside the window of every remaining source keeps its
accumulated value zero. -/
theorem psfLoop_data_outside (shape : ℕ × ℕ) (shp : ℤ × ℤ)
    (psfEval : Params ℚ → ℕ → ℕ → ℚ) (rows : List (ℚ × ℚ × ℚ))
    (start : Image ℚ × Params ℚ) (py px : ℕ)
    (h0 : start.1 py px = 0)
    (hout : ∀ r ∈ rows, ¬ inWindow (windowOf shape shp (r.1, r.2.1)) py px) :
    (rows.foldl (psfPlaceStep shape shp psfEval) start).1 py px = 0 := by
  induction rows generalizing start with
  | nil => simpa using h0
  | cons r0 rest ih =>
    simp only [List.foldl_cons]
    apply ih
    · show start.1 py px +
        (if inWindow (windowOf shape shp (r0.1, r0.2.1)) py px
         then _ else 0) = 0
      rw [if_neg (hout r0 (by simp))]
      simpa using h0
    · intro r hr
      exact hout r (by simp [hr])

/-- Unfolding `make_test_psf_data` on the success path of
`_define_psf_shape`. -/
theorem make_test_psf_data_ok (shape : ℕ × ℕ) (psf_model : PsfModelObj)
    (psf_shape : ℤ × ℤ) (nsources : ℕ) (min_separation : ℚ)
    (border_size : Option (ℤ × ℤ))
    (xycoordsGen : ℕ → (ℚ × ℚ) → (ℚ × ℚ) → ℚ → List (ℚ × ℚ))
    (fluxDraws : List ℚ) (psfEval : Params ℚ → ℕ → ℕ → ℚ)
    (shp : ℤ × ℤ) (ws : List Warn)
    (hdef : define_psf_shape psf_model.meta psf_shape = (Except.ok shp, ws)) :
    make_test_psf_data shape psf_model psf_shape nsources min_separation
        border_size xycoordsGen fluxDraws psfEval
      = (Except.ok
          { data := ((psfSourceRows
              (xycoordsGen nsources
                (xRangeOf shape (borderHShape border_size shp))
                (yRangeOf shape (borderHShape border_size shp))
                min_separation) fluxDraws).foldl
              (psfPlaceStep shape shp psfEval)
              ((fun _ _ => (0 : ℚ)), psf_model.params)).1
            table :=
              [("x", (psfSourceRows
                (xycoordsGen nsources
                  (xRangeOf shape (borderHShape border_size shp))
                  (yRangeOf shape (borderHShape border_size shp))
                  min_separation) fluxDraws).map (fun s => s.1)),
               ("y", (psfSourceRows
                (xycoordsGen nsources
                  (xRangeOf shape (borderHShape border_size shp))
                  (yRangeOf shape (borderHShape border_size shp))
                  min_separation) fluxDraws).map (fun s => s.2.1)),
               ("flux", (psfSourceRows
                (xycoordsGen nsources
                  (xRangeOf shape (borderHShape border_size shp))
                  (yRangeOf shape (borderHShape border_size shp))
                  min_separation) fluxDraws).map (fun s => s.2.2))]
            model := ((psfSourceRows
              (xycoordsGen nsources
                (xRangeOf shape (borderHShape border_size shp))
                (yRangeOf shape (borderHShape border_size shp))
                min_separation) fluxDraws).foldl
              (psfPlaceStep shape shp psfEval)
              ((fun _ _ => (0 : ℚ)), psf_model.params)).2 }, ws) := by
  unfold make_test_psf_data
  rw [hdef]

theorem psfSourceRows_map_x (cs : List (ℚ × ℚ)) (fluxDraws : List ℚ)
    (hlen : cs.length ≤ fluxDraws.length) :
    (psfSourceRows cs fluxDraws).map (fun s => s.1) = cs.map Prod.fst := by
  unfold psfSourceRows
  rw [List.map_map]
  have hz : cs.length ≤ (fluxDraws.take cs.length).length := by
    simpa using hlen
  have := List.map_fst_zip cs (fluxDraws.take cs.length) hz
  calc (cs.zip (fluxDraws.take cs.length)).map
        ((fun s : ℚ × ℚ × ℚ => s.1) ∘ (fun p : (ℚ × ℚ) × ℚ => (p.1.1, p.1.2, p.2)))
      = ((cs.zip (fluxDraws.take cs.length)).map Prod.fst).map Prod.fst := by
        rw [List.map_map]
        rfl
    _ = cs.map Prod.fst := by rw [this]

theorem psfSourceRows_map_y (cs : List (ℚ × ℚ)) (fluxDraws : List ℚ)
    (hlen : cs.length ≤ fluxDraws.length) :
    (psfSourceRows cs fluxDraws).map (fun s => s.2.1) = cs.map Prod.snd := by
  unfold psfSourceRows
  rw [List.map_map]
  have hz : cs.length ≤ (fluxDraws.take cs.length).length := by
    simpa using hlen
  have := List.map_fst_zip cs (fluxDraws.take cs.length) hz
  calc (cs.zip (fluxDraws.take cs.length)).map
        ((fun s : ℚ × ℚ × ℚ => s.2.1) ∘ (fun p : (ℚ × ℚ) × ℚ => (p.1.1, p.1.2, p.2)))
      = ((cs.zip (fluxDraws.take cs.length)).map Prod.fst).map Prod.snd := by
        rw [List.map_map]
        rfl
    _ = cs.map Prod.snd := by rw [this]

theorem psfSourceRows_map_flux (cs : List (ℚ × ℚ)) (fluxDraws : List ℚ) :
    (psfSourceRows cs fluxDraws).map (fun s => s.2.2)
      = fluxDraws.take cs.length := by
  unfold psfSourceRows
  rw [List.map_map]
  have hz : (fluxDraws.take cs.length).length ≤ cs.length := by
    simp
  have := List.map_snd_zip cs (fluxDraws.take cs.length) hz
  calc (cs.zip (fluxDraws.take cs.length)).map
        ((fun s : ℚ × ℚ × ℚ => s.2.2) ∘ (fun p : (ℚ × ℚ) × ℚ => (p.1.1, p.1.2, p.2)))
      = (cs.zip (fluxDraws.take cs.length)).map Prod.snd := by
        apply List.map_congr_left
        intro p _
        rfl
    _ = fluxDraws.take cs.length := this

/-- Membership of a row's center in the generated coordinate list. -/
theorem psfSourceRows_center_mem (cs : List (ℚ × ℚ)) (fluxDraws : List ℚ)
    (r : ℚ × ℚ × ℚ) (hr : r ∈ psfSourceRows cs fluxDraws) :
    (r.1, r.2.1) ∈ cs := by
  unfold psfSourceRows at hr
  rcases List.mem_map.mp hr with ⟨p, hp, hpr⟩
  have h1 : p.1 ∈ cs := (List.of_mem_zip hp).1
  have : (r.1, r.2.1) = p.1 := by
    rw [← hpr]
  rw [this]
  exact h1

theorem c10_unassigned_model_shape_raises :
    define_psf_shape ⟨some [5], none, none⟩ (3, 3) = (Except.error (), [])
    ∧ (make_test_psf_data (10, 10) ⟨⟨some [5], none, none⟩, []⟩ (3, 3) 1 0
        none (fun _ _ _ _ => []) [] (fun _ _ _ => 0)).1.map TestPsfOut.model
      = Except.error () := by
  constructor
  · rfl
  · rfl

/-- C8: `make_imagehdu` returns the `ValueError` (aborting before any
container is constructed) exactly when the input array is not
2-dimensional; for 2D input it returns the container wrapping the input
data, whose coordinate-system header is present exactly when a `wcs` is
supplied. -/
theorem c8_make_imagehdu_dim (data : NDArr) (wcs : Option PixSkyDesc) :
    (make_imagehdu data wcs = Except.error () ↔ data.shape.length ≠ 2)
    ∧ (data.shape.length = 2 →
        make_imagehdu data wcs = Except.ok { data := data, header := wcs })
    ∧ (∀ h, make_imagehdu data wcs = Except.ok h →
        h.data = data ∧ (h.header.isSome ↔ wcs.isSome)) := by
  by_cases hd : data.shape.length = 2
  · have hC : ¬ (data.shape.length ≠ 2) := fun hne => hne hd
    refine ⟨?_, ?_, ?_⟩
    · unfold make_imagehdu
      rw [if_neg hC]
      simp [hd]
    · intro _
      unfold make_imagehdu
      rw [if_neg hC]
    · intro h hh
      unfold make_imagehdu at hh
      rw [if_neg hC] at hh
      have := Except.ok.inj hh
      rw [← this]
      exact ⟨rfl, Iff.rfl⟩
  · refine ⟨?_, ?_, ?_⟩
    · unfold make_imagehdu
      rw [if_pos hd]
      simp [hd]
    · intro h2
      exact absurd h2 hd
    · intro h hh
      unfold make_imagehdu at hh
      rw [if_pos hd] at hh
      simp at hh

/-- Witness for C8: a 1D array is rejected; a 2D array is wrapped with
no header when no WCS is given. -/
theorem c8_make_imagehdu_dim_w :
    (make_imagehdu ⟨[5], []⟩ none = Except.error ()
      ↔ ([5] : List ℕ).length ≠ 2)
    ∧ make_imagehdu ⟨[2, 3], [1]⟩ none
        = Except.ok { data := ⟨[2, 3], [1]⟩, header := none } :=
  ⟨(c8_make_imagehdu_dim ⟨[5], []⟩ none).1,
   (c8_make_imagehdu_dim ⟨[2, 3], [1]⟩ none).2.1 (by decide)⟩

/-- C5: when the model's `data` shape (floor-divided by oversampling) or,
absent `data`, its bounding-box-derived shape is exceeded by the
requested window on any axis, `_define_psf_shape` shrinks the window to
the per-axis minimum of the two shapes and emits exactly one warning (a
non-fatal, `Except.ok` result); otherwise the window is returned
unchanged with no warning.  The correction happens once, before the
placement loop: `make_test_psf_data` emits exactly the warnings of its
single `_define_psf_shape` call. -/
theorem c5_window_shrink_warn (m : PsfMeta) (ps : ℤ × ℤ) :
    (∀ ds : List ℕ, m.dataShape = some ds → (ds.length = 3 ∨ ds.length = 2) →
      ∀ ms : ℤ × ℤ,
      ms = ((((if ds.length = 3 then (ds.getD 1 0, ds.getD 2 0)
               else (ds.getD 0 0, ds.getD 1 0)).1
              / (m.oversampling.getD (1, 1)).1 : ℕ) : ℤ),
            (((if ds.length = 3 then (ds.getD 1 0, ds.getD 2 0)
               else (ds.getD 0 0, ds.getD 1 0)).2
              / (m.oversampling.getD (1, 1)).2 : ℕ) : ℤ)) →
      ((ps.1 > ms.1 ∨ ps.2 > ms.2) →
         define_psf_shape m ps
           = (Except.ok (min ms.1 ps.1, min ms.2 ps.2), [Warn.psfShapeFromData])
         ∧ min ms.1 ps.1 ≤ ps.1 ∧ min ms.2 ps.2 ≤ ps.2)
      ∧ (¬(ps.1 > ms.1 ∨ ps.2 > ms.2) →
         define_psf_shape m ps = (Except.ok ps, [])))
    ∧ (∀ bb : BBox, m.dataShape = none → m.bbox = some bb →
      ∀ ms : ℤ × ℤ,
      ms = (Int.ceil (bb.yhi + 1/2) - Int.floor (bb.ylo + 1/2),
            Int.ceil (bb.xhi + 1/2) - Int.floor (bb.xlo + 1/2)) →
      ((ps.1 > ms.1 ∨ ps.2 > ms.2) →
         define_psf_shape m ps
           = (Except.ok (min ms.1 ps.1, min ms.2 ps.2), [Warn.psfShapeFromBBox])
         ∧ min ms.1 ps.1 ≤ ps.1 ∧ min ms.2 ps.2 ≤ ps.2)
      ∧ (¬(ps.1 > ms.1 ∨ ps.2 > ms.2) →
         define_psf_shape m ps = (Except.ok ps, [])))
    ∧ (∀ (shape : ℕ × ℕ) (psf_model : PsfModelObj) (psf_shape : ℤ × ℤ)
        (nsources : ℕ) (minsep : ℚ) (bs : Option (ℤ × ℤ))
        (gen : ℕ → (ℚ × ℚ) → (ℚ × ℚ) → ℚ → List (ℚ × ℚ))
        (fluxDraws : List ℚ) (psfEval : Params ℚ → ℕ → ℕ → ℚ),
        (make_test_psf_data shape psf_model psf_shape nsources minsep bs gen
          fluxDraws psfEval).2
          = (define_psf_shape psf_model.meta psf_shape).2) := by
  refine ⟨?_, ?_, ?_⟩
  · intro ds hds hlen ms hms
    have hchar : define_psf_shape m ps
        = (if ps.1 > ms.1 ∨ ps.2 > ms.2
           then (Except.ok (min ms.1 ps.1, min ms.2 ps.2),
             [Warn.psfShapeFromData])
           else (Except.ok ps, [])) := by
      subst hms
      unfold define_psf_shape
      rw [hds]
      dsimp only
      rw [if_pos hlen]
    constructor
    · intro hexc
      rw [hchar, if_pos hexc]
      exact ⟨rfl, min_le_right _ _, min_le_right _ _⟩
    · intro hnexc
      rw [hchar, if_neg hnexc]
  · intro bb hnone hbb ms hms
    have hchar : define_psf_shape m ps
        = (if ps.1 > ms.1 ∨ ps.2 > ms.2
           then (Except.ok (min ms.1 ps.1, min ms.2 ps.2),
             [Warn.psfShapeFromBBox])
           else (Except.ok ps, [])) := by
      subst hms
      unfold define_psf_shape
      rw [hnone]
      dsimp only
      rw [hbb]
    constructor
    · intro hexc
      rw [hchar, if_pos hexc]
      exact ⟨rfl, min_le_right _ _, min_le_right _ _⟩
    · intro hnexc
      rw [hchar, if_neg hnexc]
  · intro shape psf_model psf_shape nsources minsep bs gen fluxDraws psfEval
    rcases hdd : define_psf_shape psf_model.meta psf_shape with ⟨res, ws⟩
    cases res with
    | error e =>
      unfold make_test_psf_data
      rw [hdd]
    | ok shp =>
      unfold make_test_psf_data
      rw [hdd]

/-- Witness for C5: a 7×7 model grid with oversampling 2 bounds the
window at 3×3, so a requested 5×4 window shrinks to 3×3 with the data
warning; a bounding box `[-2, 2] × [-2, 2]` gives a 5×5 bound, so a 9×9
request shrinks to 5×5 with the bbox warning; `make_test_psf_data`
surfaces exactly the warnings of its `_define_psf_shape` call. -/
theorem c5_window_shrink_warn_w :
    define_psf_shape ⟨some [7, 7], none, some (2, 2)⟩ (5, 4)
      = (Except.ok (3, 3), [Warn.psfShapeFromData])
    ∧ define_psf_shape ⟨none, some ⟨-2, 2, -2, 2⟩, none⟩ (9, 9)
      = (Except.ok (5, 5), [Warn.psfShapeFromBBox])
    ∧ (make_test_psf_data (10, 10) ⟨⟨some [7, 7], none, some (2, 2)⟩, []⟩
        (5, 4) 1 0 none (fun _ _ _ _ => []) [] (fun _ _ _ => 0)).2
      = (define_psf_shape ⟨some [7, 7], none, some (2, 2)⟩ (5, 4)).2 := by
  refine ⟨?_, ?_, ?_⟩
  · have h := ((c5_window_shrink_warn ⟨some [7, 7], none, some (2, 2)⟩
      (5, 4)).1 [7, 7] rfl (by decide) ((3 : ℤ), (3 : ℤ)) (by decide)).1
      (by decide)
    rw [h.1]
    rw [show min (3 : ℤ) 5 = 3 from by decide,
      show min (3 : ℤ) 4 = 3 from by decide]
  · have hceil : Int.ceil ((2 : ℚ) + 1/2) = 3 := by
      rw [Int.ceil_eq_iff]
      constructor <;> norm_num
    have hfloor : Int.floor ((-2 : ℚ) + 1/2) = -2 := by
      rw [Int.floor_eq_iff]
      constructor <;> norm_num
    have hms : ((5 : ℤ), (5 : ℤ))
        = (Int.ceil (((⟨-2, 2, -2, 2⟩ : BBox).yhi : ℚ) + 1/2)
             - Int.floor (((⟨-2, 2, -2, 2⟩ : BBox).ylo : ℚ) + 1/2),
           Int.ceil (((⟨-2, 2, -2, 2⟩ : BBox).xhi : ℚ) + 1/2)
             - Int.floor (((⟨-2, 2, -2, 2⟩ : BBox).xlo : ℚ) + 1/2)) := by
      show ((5 : ℤ), (5 : ℤ)) = (Int.ceil ((2 : ℚ) + 1/2)
        - Int.floor ((-2 : ℚ) + 1/2), Int.ceil ((2 : ℚ) + 1/2)
        - Int.floor ((-2 : ℚ) + 1/2))
      rw [hceil, hfloor]
      decide
    have h := ((c5_window_shrink_warn ⟨none, some ⟨-2, 2, -2, 2⟩, none⟩
      (9, 9)).2.1 ⟨-2, 2, -2, 2⟩ rfl rfl ((5 : ℤ), (5 : ℤ)) hms).1
      (by decide)
    rw [h.1]
    rw [show min (5 : ℤ) 9 = 5 from by decide]
  · exact (c5_window_shrink_warn ⟨some [7, 7], none, some (2, 2)⟩
      (5, 4)).2.2 (10, 10) ⟨⟨some [7, 7], none, some (2, 2)⟩, []⟩ (5, 4) 1 0
      none (fun _ _ _ _ => []) [] (fun _ _ _ => 0)

/-- C6: when the generated coordinate list is allowed to be shorter than
`nsources` (the minimum-separation contract of the coordinate generator),
`make_test_psf_data` returns normally (`Except.ok`), with no warning
beyond those of `_define_psf_shape`, and the returned table has exactly
one row per realized position — its `x`/`y` columns are the realized
positions and its `flux` column is the draw list truncated to the number
of positions. -/
theorem c6_silent_truncation (shape : ℕ × ℕ) (psf_model : PsfModelObj)
    (psf_shape : ℤ × ℤ) (nsources : ℕ) (minsep : ℚ)
    (bs : Option (ℤ × ℤ))
    (gen : ℕ → (ℚ × ℚ) → (ℚ × ℚ) → ℚ → List (ℚ × ℚ))
    (fluxDraws : List ℚ) (psfEval : Params ℚ → ℕ → ℕ → ℚ)
    (shp : ℤ × ℤ) (ws : List Warn)
    (hdef : define_psf_shape psf_model.meta psf_shape = (Except.ok shp, ws))
    (hflux : fluxDraws.length = nsources)
    (hlen : (gen nsources (xRangeOf shape (borderHShape bs shp))
        (yRangeOf shape (borderHShape bs shp)) minsep).length ≤ nsources) :
    (make_test_psf_data shape psf_model psf_shape nsources minsep bs gen
        fluxDraws psfEval).1.map TestPsfOut.table
      = Except.ok
          [("x", (gen nsources (xRangeOf shape (borderHShape bs shp))
              (yRangeOf shape (borderHShape bs shp)) minsep).map Prod.fst),
           ("y", (gen nsources (xRangeOf shape (borderHShape bs shp))
              (yRangeOf shape (borderHShape bs shp)) minsep).map Prod.snd),
           ("flux", fluxDraws.take (gen nsources
              (xRangeOf shape (borderHShape bs shp))
              (yRangeOf shape (borderHShape bs shp)) minsep).length)]
    ∧ ((gen nsources (xRangeOf shape (borderHShape bs shp))
        (yRangeOf shape (borderHShape bs shp)) minsep).map Prod.fst).length
      = (gen nsources (xRangeOf shape (borderHShape bs shp))
        (yRangeOf shape (borderHShape bs shp)) minsep).length
    ∧ (fluxDraws.take (gen nsources (xRangeOf shape (borderHShape bs shp))
        (yRangeOf shape (borderHShape bs shp)) minsep).length).length
      = (gen nsources (xRangeOf shape (borderHShape bs shp))
        (yRangeOf shape (borderHShape bs shp)) minsep).length
    ∧ (make_test_psf_data shape psf_model psf_shape nsources minsep bs gen
        fluxDraws psfEval).2 = ws := by
  have hlen' : (gen nsources (xRangeOf shape (borderHShape bs shp))
      (yRangeOf shape (borderHShape bs shp)) minsep).length
      ≤ fluxDraws.length := by
    rw [hflux]
    exact hlen
  rw [make_test_psf_data_ok shape psf_model psf_shape nsources minsep bs gen
    fluxDraws psfEval shp ws hdef]
  refine ⟨?_, ?_, ?_, rfl⟩
  · show Except.ok _ = Except.ok _
    rw [psfSourceRows_map_x _ _ hlen', psfSourceRows_map_y _ _ hlen',
      psfSourceRows_map_flux]
  · simp
  · simp
    exact hlen'

/-- Witness for C6: three sources requested with draws `[5, 6, 7]`, but
the generator realizes a single position `(2, 2)`; the run succeeds with
a one-row table whose flux column is `[5]`, and no warnings. -/
theorem c6_silent_truncation_w :
    ([(5 : ℚ), 6, 7] : List ℚ).length = 3
    ∧ (make_test_psf_data (9, 9) ⟨⟨none, none, none⟩, []⟩ (3, 3) 3 0 none
        (fun _ _ _ _ => [((2 : ℚ), (2 : ℚ))]) [5, 6, 7]
        (fun _ _ _ => 0)).1.map TestPsfOut.table
      = Except.ok [("x", [(2 : ℚ)]), ("y", [(2 : ℚ)]), ("flux", [(5 : ℚ)])]
    ∧ (make_test_psf_data (9, 9) ⟨⟨none, none, none⟩, []⟩ (3, 3) 3 0 none
        (fun _ _ _ _ => [((2 : ℚ), (2 : ℚ))]) [5, 6, 7]
        (fun _ _ _ => 0)).2 = [] := by
  have h := c6_silent_truncation (9, 9) ⟨⟨none, none, none⟩, []⟩ (3, 3) 3 0
    none (fun _ _ _ _ => [((2 : ℚ), (2 : ℚ))]) [5, 6, 7] (fun _ _ _ => 0)
    (3, 3) [] rfl rfl (by decide)
  exact ⟨rfl, h.1, h.2.2.2⟩

/-- C7 counterexample: for an even 10×10 evaluation window the border
margin computed by `make_test_psf_data` (no caller override) is
`(10 - 1) // 2 = 4`, not half the window size (5), and a generator
drawing from the offered range can realize a center at `x = 4`, outside
the claimed half-window-margin region `[5, 15]`. -/
theorem c7_half_margin_cex :
    psfHalfShape (10, 10) = (4, 4)
    ∧ ((4 : ℤ), (4 : ℤ)) ≠ ((10 : ℤ) / 2, (10 : ℤ) / 2)
    ∧ (make_test_psf_data (20, 20) ⟨⟨none, none, none⟩, []⟩ (10, 10) 1 0 none
        (fun _ xr yr _ => [(xr.1, yr.1)]) [1] (fun _ _ _ => 0)).1.map
        TestPsfOut.table
      = Except.ok [("x", [(4 : ℚ)]), ("y", [(4 : ℚ)]), ("flux", [(1 : ℚ)])]
    ∧ ¬ ((10 : ℚ) / 2 ≤ 4) := by
  refine ⟨by decide, by decide, ?_, by norm_num⟩
  rw [make_test_psf_data_ok (20, 20) ⟨⟨none, none, none⟩, []⟩ (10, 10) 1 0
    none (fun _ xr yr _ => [(xr.1, yr.1)]) [1] (fun _ _ _ => 0) (10, 10) []
    rfl]
  have hb : borderHShape none ((10 : ℤ), (10 : ℤ)) = (4, 4) := by decide
  show Except.ok _ = Except.ok _
  rw [hb]
  have hc : (((4 : ℤ) : ℚ)) = 4 := by norm_num
  show Except.ok
      [("x", [((4 : ℤ) : ℚ)]), ("y", [((4 : ℤ) : ℚ)]), ("flux", [(1 : ℚ)])]
    = Except.ok [("x", [(4 : ℚ)]), ("y", [(4 : ℚ)]), ("flux", [(1 : ℚ)])]
  rw [hc]

/-- C7 amended: with no caller override the border margin is
`(psf_shape - 1) // 2` per axis (one less than half for even window
sizes, the floor of half for odd sizes), and — given the generator
contract that positions lie within the offered ranges — every realized
source center lies in `[margin, size - margin]` on each axis; the
returned table consists exactly of those centers. -/
theorem c7_margin_amended (shape : ℕ × ℕ) (psf_model : PsfModelObj)
    (psf_shape : ℤ × ℤ) (nsources : ℕ) (minsep : ℚ)
    (gen : ℕ → (ℚ × ℚ) → (ℚ × ℚ) → ℚ → List (ℚ × ℚ))
    (fluxDraws : List ℚ) (psfEval : Params ℚ → ℕ → ℕ → ℚ)
    (shp : ℤ × ℤ) (ws : List Warn)
    (hdef : define_psf_shape psf_model.meta psf_shape = (Except.ok shp, ws))
    (hgen : ∀ (n : ℕ) (xr yr : ℚ × ℚ) (ms : ℚ) (c : ℚ × ℚ),
      c ∈ gen n xr yr ms →
      xr.1 ≤ c.1 ∧ c.1 ≤ xr.2 ∧ yr.1 ≤ c.2 ∧ c.2 ≤ yr.2)
    (hflux : fluxDraws.length = nsources)
    (hlen : (gen nsources (xRangeOf shape (borderHShape none shp))
        (yRangeOf shape (borderHShape none shp)) minsep).length ≤ nsources) :
    borderHShape none shp = ((shp.1 - 1).fdiv 2, (shp.2 - 1).fdiv 2)
    ∧ (∀ c ∈ gen nsources (xRangeOf shape (borderHShape none shp))
        (yRangeOf shape (borderHShape none shp)) minsep,
        ((((shp.2 - 1).fdiv 2 : ℤ) : ℚ) ≤ c.1
          ∧ c.1 ≤ (shape.2 : ℚ) - (((shp.2 - 1).fdiv 2 : ℤ) : ℚ))
        ∧ ((((shp.1 - 1).fdiv 2 : ℤ) : ℚ) ≤ c.2
          ∧ c.2 ≤ (shape.1 : ℚ) - (((shp.1 - 1).fdiv 2 : ℤ) : ℚ)))
    ∧ (make_test_psf_data shape psf_model psf_shape nsources minsep none gen
        fluxDraws psfEval).1.map TestPsfOut.table
      = Except.ok
          [("x", (gen nsources (xRangeOf shape (borderHShape none shp))
              (yRangeOf shape (borderHShape none shp)) minsep).map Prod.fst),
           ("y", (gen nsources (xRangeOf shape (borderHShape none shp))
              (yRangeOf shape (borderHShape none shp)) minsep).map Prod.snd),
           ("flux", fluxDraws.take (gen nsources
              (xRangeOf shape (borderHShape none shp))
              (yRangeOf shape (borderHShape none shp)) minsep).length)] := by
  have hlen' : (gen nsources (xRangeOf shape (borderHShape none shp))
      (yRangeOf shape (borderHShape none shp)) minsep).length
      ≤ fluxDraws.length := by
    rw [hflux]
    exact hlen
  refine ⟨rfl, ?_, ?_⟩
  · intro c hc
    have h := hgen nsources (xRangeOf shape (borderHShape none shp))
      (yRangeOf shape (borderHShape none shp)) minsep c hc
    dsimp only [xRangeOf, yRangeOf, borderHShape, psfHalfShape] at h
    exact ⟨⟨h.1, h.2.1⟩, h.2.2.1, h.2.2.2⟩
  · rw [make_test_psf_data_ok shape psf_model psf_shape nsources minsep none
      gen fluxDraws psfEval shp ws hdef]
    show Except.ok _ = Except.ok _
    rw [psfSourceRows_map_x _ _ hlen', psfSourceRows_map_y _ _ hlen',
      psfSourceRows_map_flux]

/-- Witness for C7 amended: a generator returning the lower corner of
any nonempty offered range; with an 11×11 window on a 21×21 image the
margin is 5 and the realized center is `(5, 5)`. -/
theorem c7_margin_amended_w :
    borderHShape none ((11 : ℤ), (11 : ℤ)) = (5, 5)
    ∧ (∀ c ∈ (fun (_ : ℕ) (xr yr : ℚ × ℚ) (_ : ℚ) =>
          if xr.1 ≤ xr.2 ∧ yr.1 ≤ yr.2 then [(xr.1, yr.1)] else []) 1
          (xRangeOf (21, 21) (borderHShape none ((11 : ℤ), (11 : ℤ))))
          (yRangeOf (21, 21) (borderHShape none ((11 : ℤ), (11 : ℤ)))) 0,
        (((((11 : ℤ) - 1).fdiv 2 : ℤ) : ℚ) ≤ c.1
          ∧ c.1 ≤ ((21 : ℕ) : ℚ) - ((((11 : ℤ) - 1).fdiv 2 : ℤ) : ℚ))
        ∧ (((((11 : ℤ) - 1).fdiv 2 : ℤ) : ℚ) ≤ c.2
          ∧ c.2 ≤ ((21 : ℕ) : ℚ) - ((((11 : ℤ) - 1).fdiv 2 : ℤ) : ℚ))) := by
  have hgen : ∀ (n : ℕ) (xr yr : ℚ × ℚ) (ms : ℚ) (c : ℚ × ℚ),
      c ∈ (fun (_ : ℕ) (xr yr : ℚ × ℚ) (_ : ℚ) =>
        if xr.1 ≤ xr.2 ∧ yr.1 ≤ yr.2 then [(xr.1, yr.1)] else []) n xr yr ms →
      xr.1 ≤ c.1 ∧ c.1 ≤ xr.2 ∧ yr.1 ≤ c.2 ∧ c.2 ≤ yr.2 := by
    intro n xr yr ms c hc
    dsimp only at hc
    by_cases hok : xr.1 ≤ xr.2 ∧ yr.1 ≤ yr.2
    · rw [if_pos hok] at hc
      have : c = (xr.1, yr.1) := by simpa using hc
      subst this
      exact ⟨le_refl _, hok.1, le_refl _, hok.2⟩
    · rw [if_neg hok] at hc
      simp at hc
  have h := c7_margin_amended (21, 21) ⟨⟨none, none, none⟩, []⟩ (11, 11) 1 0
    (fun (_ : ℕ) (xr yr : ℚ × ℚ) (_ : ℚ) =>
      if xr.1 ≤ xr.2 ∧ yr.1 ≤ yr.2 then [(xr.1, yr.1)] else []) [1]
    (fun _ _ _ => 0) (11, 11) [] rfl hgen rfl ?hl
  · exact ⟨h.1, h.2.1⟩
  case hl =>
    have hb : borderHShape none ((11 : ℤ), (11 : ℤ)) = (5, 5) := by decide
    rw [hb]
    have hcond : (((5 : ℤ) : ℚ) ≤ ((21 : ℕ) : ℚ) - ((5 : ℤ) : ℚ))
        ∧ (((5 : ℤ) : ℚ) ≤ ((21 : ℕ) : ℚ) - ((5 : ℤ) : ℚ)) := by
      norm_num
    show (if (((5 : ℤ) : ℚ) ≤ ((21 : ℕ) : ℚ) - ((5 : ℤ) : ℚ))
        ∧ (((5 : ℤ) : ℚ) ≤ ((21 : ℕ) : ℚ) - ((5 : ℤ) : ℚ))
        then [((((5 : ℤ) : ℚ)), (((5 : ℤ) : ℚ)))] else []).length ≤ 1
    rw [if_pos hcond]
    decide

/-- C4: each source adds model values only inside the trimmed
intersection of its evaluation window with the image bounds; every pixel
outside the union of the realized sources' clipped windows has value 0 in
the output image (the buffer is zero-initialized and each loop iteration
adds only inside its window). -/
theorem c4_outside_windows_zero (shape : ℕ × ℕ) (psf_model : PsfModelObj)
    (psf_shape : ℤ × ℤ) (nsources : ℕ) (minsep : ℚ) (bs : Option (ℤ × ℤ))
    (gen : ℕ → (ℚ × ℚ) → (ℚ × ℚ) → ℚ → List (ℚ × ℚ))
    (fluxDraws : List ℚ) (psfEval : Params ℚ → ℕ → ℕ → ℚ)
    (shp : ℤ × ℤ) (ws : List Warn)
    (hdef : define_psf_shape psf_model.meta psf_shape = (Except.ok shp, ws))
    (py px : ℕ)
    (hout : ∀ c ∈ gen nsources (xRangeOf shape (borderHShape bs shp))
        (yRangeOf shape (borderHShape bs shp)) minsep,
      ¬ inWindow (windowOf shape shp c) py px) :
    (make_test_psf_data shape psf_model psf_shape nsources minsep bs gen
        fluxDraws psfEval).1.map (fun o => o.data py px) = Except.ok 0 := by
  rw [make_test_psf_data_ok shape psf_model psf_shape nsources minsep bs gen
    fluxDraws psfEval shp ws hdef]
  show Except.ok _ = Except.ok _
  refine congrArg Except.ok ?_
  apply psfLoop_data_outside
  · rfl
  · intro r hr
    exact hout _ (psfSourceRows_center_mem _ _ r hr)

/-- Witness for C4: one source at `(2, 2)` with a 3×3 window on a 5×5
image; its clipped window is `[1, 4) × [1, 4)`, so pixel `(0, 0)` stays
zero even though the model evaluates to 1 everywhere. -/
theorem c4_outside_windows_zero_w :
    (∀ c ∈ [((2 : ℚ), (2 : ℚ))], ¬ inWindow (windowOf (5, 5) (3, 3) c) 0 0)
    ∧ (make_test_psf_data (5, 5) ⟨⟨none, none, none⟩, []⟩ (3, 3) 1 0 none
        (fun _ _ _ _ => [((2 : ℚ), (2 : ℚ))]) [1] (fun _ _ _ => 1)).1.map
        (fun o => o.data 0 0) = Except.ok 0 := by
  have hout : ∀ c ∈ [((2 : ℚ), (2 : ℚ))],
      ¬ inWindow (windowOf (5, 5) (3, 3) c) 0 0 := by
    intro c hc hin
    have hc2 : c = ((2 : ℚ), (2 : ℚ)) := by simpa using hc
    subst hc2
    have h1 := hin.1
    have hpos : (0 : ℤ) < Int.ceil ((2 : ℚ) - ((3 : ℤ) : ℚ) / 2) := by
      apply Int.ceil_pos.mpr
      norm_num
    have h1' : max (0 : ℤ) (Int.ceil ((2 : ℚ) - ((3 : ℤ) : ℚ) / 2))
        ≤ ((0 : ℕ) : ℤ) := h1
    have h2 := le_max_right (0 : ℤ)
      (Int.ceil ((2 : ℚ) - ((3 : ℤ) : ℚ) / 2))
    simp only [Nat.cast_zero] at h1'
    linarith
  exact ⟨hout,
    c4_outside_windows_zero (5, 5) ⟨⟨none, none, none⟩, []⟩ (3, 3) 1 0 none
      (fun _ _ _ _ => [((2 : ℚ), (2 : ℚ))]) [1] (fun _ _ _ => 1) (3, 3) []
      rfl 0 0 hout⟩

/-- C1 counterexample: `make_test_psf_data` does not restore the
caller-supplied model's parameters: after a run with one source at
`(5, 7)` with flux 9, the model's parameters read `(5, 7, 9)`, not their
entry values `(0, 0, 1)`. -/
theorem c1_not_restored_cex :
    (make_test_psf_data (20, 20)
        ⟨⟨none, none, none⟩, [("x_0", 0), ("y_0", 0), ("flux", 1)]⟩ (3, 3) 1
        1 none (fun _ _ _ _ => [((5 : ℚ), (7 : ℚ))]) [9]
        (fun _ _ _ => 0)).1.map TestPsfOut.model
      ≠ Except.ok [("x_0", (0 : ℚ)), ("y_0", 0), ("flux", 1)] := by
  rw [make_test_psf_data_ok (20, 20)
    ⟨⟨none, none, none⟩, [("x_0", 0), ("y_0", 0), ("flux", 1)]⟩ (3, 3) 1 1
    none (fun _ _ _ _ => [((5 : ℚ), (7 : ℚ))]) [9] (fun _ _ _ => 0) (3, 3) []
    rfl]
  intro h
  have h2 := Except.ok.inj h
  have h3 : (5 : ℚ) = 0 :=
    congrArg (fun l : Params ℚ => (l.getD 0 ("", 37)).2) h2
  exact absurd h3 (by norm_num)

/-- C1 amended: `make_model_sources_image` restores every model
parameter on both exit paths (the `try/finally` guarantees rollback, for
unique parameter names); `make_test_psf_data`, by contrast, performs no
restoration — after a successful run its model's `x_0`, `y_0`, `flux`
hold the last realized source's position and flux. -/
theorem c1_restore_amended (model : Params ℚ) (source_table : Table ℚ)
    (oversample : ℚ) (evalModel : Params ℚ → Option (Image ℚ))
    (discretizeModel : Params ℚ → ℚ → Option (Image ℚ))
    (hnd : (paramNames model).Nodup)
    (shape : ℕ × ℕ) (psf_model : PsfModelObj) (psf_shape : ℤ × ℤ)
    (nsources : ℕ) (minsep : ℚ) (bs : Option (ℤ × ℤ))
    (gen : ℕ → (ℚ × ℚ) → (ℚ × ℚ) → ℚ → List (ℚ × ℚ))
    (fluxDraws : List ℚ) (psfEval : Params ℚ → ℕ → ℕ → ℚ)
    (shp : ℤ × ℤ) (ws : List Warn)
    (hdef : define_psf_shape psf_model.meta psf_shape = (Except.ok shp, ws))
    (hx : "x_0" ∈ paramNames psf_model.params)
    (hy : "y_0" ∈ paramNames psf_model.params)
    (hf : "flux" ∈ paramNames psf_model.params)
    (r : ℚ × ℚ × ℚ)
    (hlast : (psfSourceRows (gen nsources
        (xRangeOf shape (borderHShape bs shp))
        (yRangeOf shape (borderHShape bs shp)) minsep)
        fluxDraws).getLast? = some r) :
    (make_model_sources_image model source_table oversample evalModel
        discretizeModel).model = model
    ∧ (make_test_psf_data shape psf_model psf_shape nsources minsep bs gen
        fluxDraws psfEval).1.map (fun o => getPD o.model "x_0")
      = Except.ok r.1
    ∧ (make_test_psf_data shape psf_model psf_shape nsources minsep bs gen
        fluxDraws psfEval).1.map (fun o => getPD o.model "y_0")
      = Except.ok r.2.1
    ∧ (make_test_psf_data shape psf_model psf_shape nsources minsep bs gen
        fluxDraws psfEval).1.map (fun o => getPD o.model "flux")
      = Except.ok r.2.2 := by
  have hloop := psfLoop_last_params shape shp psfEval
    (psfSourceRows (gen nsources (xRangeOf shape (borderHShape bs shp))
      (yRangeOf shape (borderHShape bs shp)) minsep) fluxDraws)
    ((fun _ _ => (0 : ℚ)), psf_model.params) r hlast hx hy hf
  refine ⟨make_model_sources_image_restores model source_table oversample
    evalModel discretizeModel hnd, ?_, ?_, ?_⟩
  · rw [make_test_psf_data_ok shape psf_model psf_shape nsources minsep bs
      gen fluxDraws psfEval shp ws hdef]
    exact congrArg Except.ok hloop.1
  · rw [make_test_psf_data_ok shape psf_model psf_shape nsources minsep bs
      gen fluxDraws psfEval shp ws hdef]
    exact congrArg Except.ok hloop.2.1
  · rw [make_test_psf_data_ok shape psf_model psf_shape nsources minsep bs
      gen fluxDraws psfEval shp ws hdef]
    exact congrArg Except.ok hloop.2.2

/-- Witness for C1 amended: the renderer leaves a one-parameter Gaussian
model intact, while `make_test_psf_data` leaves `x_0 = 5` (the sole
source's x) on its model. -/
theorem c1_restore_amended_w :
    (paramNames [("amplitude", (1 : ℚ))]).Nodup
    ∧ (make_model_sources_image [("amplitude", (1 : ℚ))]
        [("amplitude", [2])] 1 (fun _ => some (fun _ _ => 0))
        (fun _ _ => none)).model = [("amplitude", (1 : ℚ))]
    ∧ (make_test_psf_data (20, 20)
        ⟨⟨none, none, none⟩, [("x_0", 0), ("y_0", 0), ("flux", 1)]⟩ (3, 3) 1
        1 none (fun _ _ _ _ => [((5 : ℚ), (7 : ℚ))]) [9]
        (fun _ _ _ => 0)).1.map (fun o => getPD o.model "x_0")
      = Except.ok 5 := by
  have h := c1_restore_amended [("amplitude", (1 : ℚ))] [("amplitude", [2])]
    1 (fun _ => some (fun _ _ => 0)) (fun _ _ => none) (by decide) (20, 20)
    ⟨⟨none, none, none⟩, [("x_0", 0), ("y_0", 0), ("flux", 1)]⟩ (3, 3) 1 1
    none (fun _ _ _ _ => [((5 : ℚ), (7 : ℚ))]) [9] (fun _ _ _ => 0) (3, 3)
    [] rfl (by decide) (by decide) (by decide) ((5 : ℚ), (7 : ℚ), (9 : ℚ))
    rfl
  exact ⟨by decide, h.1, h.2.1⟩

/-- C3: when only `flux` is present, `make_gaussian_sources_image` hands
the renderer a copy extended with `amplitude = flux / (2π·σx·σy)`; when
only `amplitude` is present, `make_gaussian_prf_sources_image` hands the
renderer a copy extended with `flux = amplitude · (2π·σ·σ)` — both
instances of `flux = amplitude · 2π·σx·σy`.  When both columns are
present, neither wrapper converts: the Gaussian renderer reads
`amplitude` (`flux` is not a `Gaussian2D` parameter, so it is ignored),
while the PRF renderer reads `flux` (`amplitude` is not an
`IntegratedGaussianPRF` parameter, so it is ignored). -/
theorem c3_flux_amplitude_precedence (st : TableStore ℝ) (r : ℕ) (os : ℚ)
    (em : Params ℝ → Option (Image ℝ))
    (dm : Params ℝ → ℚ → Option (Image ℝ)) :
    (("flux" ∈ colnames (st.getD r []) ∧ "amplitude" ∉ colnames (st.getD r []))
      → usedTable (make_gaussian_sources_image st r os em dm)
          = addCol (st.getD r []) "amplitude"
              (gaussianAmplitudeCol (st.getD r []))
        ∧ (make_gaussian_sources_image st r os em dm).out
          = make_model_sources_image gaussian2DParams
              (addCol (st.getD r []) "amplitude"
                (gaussianAmplitudeCol (st.getD r []))) os em dm)
    ∧ (("flux" ∈ colnames (st.getD r []) ∧ "amplitude" ∈ colnames (st.getD r []))
      → usedTable (make_gaussian_sources_image st r os em dm) = st.getD r []
        ∧ (make_gaussian_sources_image st r os em dm).out
          = make_model_sources_image gaussian2DParams (st.getD r []) os em dm
        ∧ "amplitude" ∈ paramNames gaussian2DParams
        ∧ "flux" ∉ paramNames gaussian2DParams)
    ∧ (("amplitude" ∈ colnames (st.getD r []) ∧ "flux" ∉ colnames (st.getD r []))
      → usedTable (make_gaussian_prf_sources_image st r em dm)
          = addCol (st.getD r []) "flux" (prfFluxCol (st.getD r []))
        ∧ (make_gaussian_prf_sources_image st r em dm).out
          = make_model_sources_image integratedGaussianPRFParams
              (addCol (st.getD r []) "flux" (prfFluxCol (st.getD r []))) 1
              em dm)
    ∧ (("flux" ∈ colnames (st.getD r []) ∧ "amplitude" ∈ colnames (st.getD r []))
      → usedTable (make_gaussian_prf_sources_image st r em dm) = st.getD r []
        ∧ (make_gaussian_prf_sources_image st r em dm).out
          = make_model_sources_image integratedGaussianPRFParams
              (st.getD r []) 1 em dm
        ∧ "flux" ∈ paramNames integratedGaussianPRFParams
        ∧ "amplitude" ∉ paramNames integratedGaussianPRFParams) := by
  refine ⟨?_, ?_, ?_, ?_⟩
  · intro h
    unfold make_gaussian_sources_image
    dsimp only
    rw [if_pos h]
    exact ⟨usedTable_concat _ _ _, rfl⟩
  · intro h
    unfold make_gaussian_sources_image
    dsimp only
    rw [if_neg (fun hc => hc.2 h.2)]
    exact ⟨rfl, rfl, by decide, by decide⟩
  · intro h
    unfold make_gaussian_prf_sources_image
    dsimp only
    rw [if_pos ⟨h.2, h.1⟩]
    exact ⟨usedTable_concat _ _ _, rfl⟩
  · intro h
    unfold make_gaussian_prf_sources_image
    dsimp only
    rw [if_neg (fun hc => hc.1 h.1)]
    exact ⟨rfl, rfl, by decide, by decide⟩

/-- Witness for C3: a flux-only table is extended with the converted
amplitude column; a table carrying both columns is passed through
unchanged by both wrappers; an amplitude-only table is extended with the
converted flux column by the PRF wrapper. -/
theorem c3_flux_amplitude_precedence_w :
    ("flux" ∈ colnames [("flux", [(10 : ℝ)])]
      ∧ "amplitude" ∉ colnames [("flux", [(10 : ℝ)])])
    ∧ usedTable (make_gaussian_sources_image [[("flux", [(10 : ℝ)])]] 0 1
        (fun _ => none) (fun _ _ => none))
      = addCol [("flux", [(10 : ℝ)])] "amplitude"
          (gaussianAmplitudeCol [("flux", [(10 : ℝ)])])
    ∧ usedTable (make_gaussian_sources_image
        [[("flux", [(10 : ℝ)]), ("amplitude", [3])]] 0 1 (fun _ => none)
        (fun _ _ => none)) = [("flux", [(10 : ℝ)]), ("amplitude", [3])]
    ∧ usedTable (make_gaussian_prf_sources_image
        [[("amplitude", [(3 : ℝ)])]] 0 (fun _ => none) (fun _ _ => none))
      = addCol [("amplitude", [(3 : ℝ)])] "flux"
          (prfFluxCol [("amplitude", [(3 : ℝ)])])
    ∧ usedTable (make_gaussian_prf_sources_image
        [[("flux", [(10 : ℝ)]), ("amplitude", [3])]] 0 (fun _ => none)
        (fun _ _ => none)) = [("flux", [(10 : ℝ)]), ("amplitude", [3])] := by
  refine ⟨by decide, ?_, ?_, ?_, ?_⟩
  · exact ((c3_flux_amplitude_precedence [[("flux", [(10 : ℝ)])]] 0 1
      (fun _ => none) (fun _ _ => none)).1 ⟨by decide, by decide⟩).1
  · exact ((c3_flux_amplitude_precedence
      [[("flux", [(10 : ℝ)]), ("amplitude", [3])]] 0 1 (fun _ => none)
      (fun _ _ => none)).2.1 ⟨by decide, by decide⟩).1
  · exact ((c3_flux_amplitude_precedence [[("amplitude", [(3 : ℝ)])]] 0 1
      (fun _ => none) (fun _ _ => none)).2.2.1 ⟨by decide, by decide⟩).1
  · exact ((c3_flux_amplitude_precedence
      [[("flux", [(10 : ℝ)]), ("amplitude", [3])]] 0 1 (fun _ => none)
      (fun _ _ => none)).2.2.2 ⟨by decide, by decide⟩).1

/-- C9: neither wrapper mutates the caller's table object: the store
entry the caller holds a reference to is unchanged after the call (the
conversion column, when needed, is added to a copy). -/
theorem c9_wrappers_preserve_caller_table (st : TableStore ℝ) (r : ℕ)
    (os : ℚ) (em : Params ℝ → Option (Image ℝ))
    (dm : Params ℝ → ℚ → Option (Image ℝ)) (hr : r < st.length) :
    (make_gaussian_sources_image st r os em dm).store.getD r []
      = st.getD r []
    ∧ (make_gaussian_prf_sources_image st r em dm).store.getD r []
      = st.getD r [] := by
  constructor
  · unfold make_gaussian_sources_image
    dsimp only
    by_cases h : "flux" ∈ colnames (st.getD r [])
        ∧ "amplitude" ∉ colnames (st.getD r [])
    · rw [if_pos h]
      show (st ++ [_]).getD r [] = st.getD r []
      rw [List.getD_eq_getElem?_getD, List.getD_eq_getElem?_getD,
        List.getElem?_append_left hr]
    · rw [if_neg h]
  · unfold make_gaussian_prf_sources_image
    dsimp only
    by_cases h : "flux" ∉ colnames (st.getD r [])
        ∧ "amplitude" ∈ colnames (st.getD r [])
    · rw [if_pos h]
      show (st ++ [_]).getD r [] = st.getD r []
      rw [List.getD_eq_getElem?_getD, List.getD_eq_getElem?_getD,
        List.getElem?_append_left hr]
    · rw [if_neg h]

/-- Witness for C9: a store holding one flux-only table (which triggers
the copy-and-convert path of both wrappers... the Gaussian one; the PRF
wrapper takes its no-copy path) keeps the caller's entry intact. -/
theorem c9_wrappers_preserve_caller_table_w :
    0 < ([[("flux", [(1 : ℝ)])]] : TableStore ℝ).length
    ∧ (make_gaussian_sources_image [[("flux", [(1 : ℝ)])]] 0 1
        (fun _ => none) (fun _ _ => none)).store.getD 0 []
      = [("flux", [(1 : ℝ)])]
    ∧ (make_gaussian_prf_sources_image [[("flux", [(1 : ℝ)])]] 0
        (fun _ => none) (fun _ _ => none)).store.getD 0 []
      = [("flux", [(1 : ℝ)])] := by
  have h := c9_wrappers_preserve_caller_table [[("flux", [(1 : ℝ)])]] 0 1
    (fun _ => none) (fun _ _ => none) (by decide)
  exact ⟨by decide, h.1, h.2⟩

end Photutils
